import Mathlib

/-!
# Verification of the kama-dbm migration and import pipeline

A shallow embedding of the core of `kamadbm` (files `migrator.py`,
`importer.py`, `cli.py`) together with proofs about the migration
ordering/application engine, the checksum-gated import pipeline, the
destructive-replace importer and the strategy registry.

Conventions of the embedding:
* Python strings are Lean `String`s (a `String` here is a structure holding a
  `List Char`, and Python string comparison is code-point lexicographic, as is
  the `List Char` order used by `String`).
* The Python standard-library string operations used by the source
  (`str.split`, `str.replace` with one-character patterns, `str.strip`,
  `str.startswith`) are re-implemented by structural recursion on the
  character list so that every definition evaluates inside the kernel.
* Side effects are made explicit: the database tables touched by the tool
  (`schema_version`, `import_data_version`, the user table an importer
  writes) are passed as values, and observable actions (executing a
  migration script, saving a tracking record, invoking an importer) are
  recorded in journals.
* An uncaught Python exception is modelled as an error value carried in the
  outcome next to the side effects already performed when it was raised
  (the CLI catches any exception once at top level and exits non-zero, so an
  exception ends the run but does not undo persisted effects).
* Wall-clock data (`date_applied`, written from `datetime.now()`) is not
  modelled; no claim mentions it.
-/

namespace KamaDbm

/-! ## Python string primitives -/

/-- Python `str.strip()` (with no argument): remove leading and trailing
whitespace. -/
def pyStrip (s : String) : String :=
  ⟨((s.data.dropWhile Char.isWhitespace).reverse.dropWhile Char.isWhitespace).reverse⟩

/-- Helper for splitting on a single character (accumulator holds the current
segment reversed). -/
def splitCharAux (c : Char) : List Char → List Char → List (List Char)
  | [], acc => [acc.reverse]
  | x :: rest, acc =>
    if x = c then acc.reverse :: splitCharAux c rest []
    else splitCharAux c rest (x :: acc)

/-- Python `s.split(c)` for a one-character separator `c`; in particular
`"".split(c) = [""]`, and separators at the ends produce empty segments. -/
def pySplitChar (c : Char) (s : String) : List String :=
  (splitCharAux c s.data []).map (fun l => ⟨l⟩)

/-- Helper for splitting on the two-character separator `"__"`.  Matches of
the separator are found left to right and do not overlap, as in Python. -/
def splitDunderAux : List Char → List Char → List (List Char)
  | [], acc => [acc.reverse]
  | '_' :: '_' :: rest, acc => acc.reverse :: splitDunderAux rest []
  | x :: rest, acc => splitDunderAux rest (x :: acc)

/-- Python `s.split("__")`. -/
def pySplitDunder (s : String) : List String :=
  (splitDunderAux s.data []).map (fun l => ⟨l⟩)

/-- Python `s.replace(c, "")` for a one-character pattern `c`: with a
one-character pattern, replacing every occurrence by the empty string is
exactly filtering that character out. -/
def removeAllChar (c : Char) (s : String) : String :=
  ⟨s.data.filter (fun x => !(x == c))⟩

/-- Python `s.replace(c, r)` for one-character pattern and replacement:
with a one-character pattern, replacing every occurrence is a character map. -/
def replaceChar (c r : Char) (s : String) : String :=
  ⟨s.data.map (fun x => if x = c then r else x)⟩

/-- Python `s.startswith("#")`. -/
def startsWithHash (s : String) : Bool :=
  match s.data with
  | '#' :: _ => true
  | _ => false

/-- The `kutil.file.remove_extension_from_path` helper (external library):
drop the final `.`-separated extension of a path, if any. -/
def remove_extension_from_path (s : String) : String :=
  match (s.data.reverse.dropWhile (fun c => c ≠ '.')) with
  | [] => s
  | _ :: rest => ⟨rest.reverse⟩

/-- Model of `os.path.join` on a POSIX system, for a second component that
is a plain (relative) name, as produced by `os.listdir` / manifest lines. -/
def pathJoin (d n : String) : String :=
  if d = "" then n
  else if d.data.getLast? = some '/' then d ++ n
  else d ++ "/" ++ n

/-! ## The migrator (`migrator.py`, class `MigrateCommand`)

`MigrateCommand.__migrate` lists every configured directory, sorts the
flattened path list by `os.path.basename`, applies the not-yet-recorded
scripts in order and records each in `schema_version` via
`__update_schema_version`.  A directory listing is modelled as the directory
path together with the base file names it contains; a flattened entry keeps
both parts, so that `os.path.join directory name` is `pathJoin`, the
`os.path.basename` sort key (and `Path(file_path).name`) is the `base`
field, and running a script is journalled as the entry itself (the script
text and its effect on user tables belong to the external database engine).
-/

/-- A row of the `schema_version` table, as written by
`MigrateCommand.__update_schema_version` (the wall-clock `date_applied`
column is not modelled, and `success` is always `1`). -/
structure SchemaRow where
  file_name : String
  version : String
  description : String
  success : Nat
deriving DecidableEq, Repr

/-- One flattened migration entry: the directory that contributed it and the
base file name inside that directory.  The full path (the list element of
`migrations` in the source) is `pathJoin dir base`. -/
structure MigEntry where
  dir : String
  base : String
deriving DecidableEq, Repr

/-- The full path of a flattened migration entry,
`os.path.join(directory, migration_file_name)`. -/
def MigEntry.path (e : MigEntry) : String := pathJoin e.dir e.base

/-- The exceptions `__migrate` can raise: the `IndexError` from
`migrations[-1]` on an empty list, and the `RuntimeError` from
`__update_schema_version` on an invalid migration name. -/
inductive MigError where
  | indexError : MigError
  | invalidMigration (name : String) : MigError
deriving DecidableEq, Repr

/-- Observable outcome of a `migrate` run: the final `schema_version` rows,
the journal of executed migration scripts (in execution order), and the
exception that ended the run, if any. -/
structure MigOutcome where
  rows : List SchemaRow
  executed : List MigEntry
  error : Option MigError
deriving DecidableEq, Repr

/-- Model of `MigrateCommand.__migration_exists`:
`SELECT 1 FROM schema_version WHERE file_name = ?` is non-empty. -/
def migration_exists (rows : List SchemaRow) (migration_name : String) : Bool :=
  rows.any (fun r => r.file_name == migration_name)

/-- Model of `MigrateCommand.__update_schema_version`: strip the extension, split on
`"__"`, require exactly two parts (else `RuntimeError`), then record the row
with `version` = first part with every `"v"` removed and every `"_"` turned
into `"."`, and `description` = second part with `"_"` turned into spaces. -/
def update_schema_version (rows : List SchemaRow) (migration_name : String) :
    Except MigError (List SchemaRow) :=
  let name := remove_extension_from_path migration_name
  match pySplitDunder name with
  | [version, description] =>
    .ok (rows ++ [{ file_name := name
                    version := replaceChar '_' '.' (removeAllChar 'v' version)
                    description := replaceChar '_' ' ' description
                    success := 1 }])
  | _ => .error (.invalidMigration name)

/-- The per-file loop of `MigrateCommand.__migrate` (lines 76-87): skip a
file whose name (with extension) is already in `schema_version`; otherwise
execute its script and record it, aborting the run if
`__update_schema_version` raises. -/
def migrateLoop (rows : List SchemaRow) (journal : List MigEntry) :
    List MigEntry → MigOutcome
  | [] => ⟨rows, journal, none⟩
  | e :: rest =>
    if migration_exists rows e.base then
      migrateLoop rows journal rest
    else
      match update_schema_version rows e.base with
      | .error err => ⟨rows, journal ++ [e], some err⟩
      | .ok rows' => migrateLoop rows' (journal ++ [e]) rest

/-- The comparison behind `migrations.sort(key=os.path.basename)`: compare
entries by base file name only, with the code-point lexicographic string
order Python uses.  It is phrased on the underlying character lists, which
is the same order as `String`'s own `≤` (`String.le_iff_toList_le`) but
evaluates inside the kernel. -/
def MigEntry.baseLE (a b : MigEntry) : Prop := a.base.data ≤ b.base.data

instance : DecidableRel MigEntry.baseLE :=
  fun a b => inferInstanceAs (Decidable (a.base.data ≤ b.base.data))

instance : IsTotal MigEntry MigEntry.baseLE :=
  ⟨fun a b => le_total a.base.data b.base.data⟩

instance : IsTrans MigEntry MigEntry.baseLE :=
  ⟨fun _ _ _ h h' => le_trans h h'⟩

/-- Model of `migrations.sort(key=os.path.basename)`: a stable sort of the flattened
entries comparing base file names only (Python `list.sort` is stable, and so
is `List.insertionSort` with a `≤` comparison). -/
def sortMigrations (l : List MigEntry) : List MigEntry :=
  l.insertionSort MigEntry.baseLE

/-- The flattening loop of `__migrate` (lines 64-66): for each configured
directory in order, append one entry per listed file. -/
def flattenDirs (dirs : List (String × List String)) : List MigEntry :=
  dirs.flatMap (fun d => d.2.map (fun n => MigEntry.mk d.1 n))

/-- Model of `MigrateCommand.__migrate`.  Here `dirs` is the concatenation
`context.cli.extra_migration_paths + context.args.migration_directories`,
each paired with its `os.listdir` result; `rows` is the current
`schema_version` table.  `migrations[-1]` on the empty list raises
`IndexError`; the fast path queries `schema_version` for the *full path* of
the sort-last entry; the loop then processes the sorted entries. -/
def migrate (dirs : List (String × List String)) (rows : List SchemaRow) : MigOutcome :=
  let sorted := sortMigrations (flattenDirs dirs)
  match sorted.getLast? with
  | none => ⟨rows, [], some .indexError⟩
  | some last =>
    if migration_exists rows last.path then ⟨rows, [], none⟩
    else migrateLoop rows [] sorted

/-! ## The import command (`importer.py`, class `ImportCommand`)

Manifest mode of `ImportCommand._execute_command` (lines 43-81): the
definition file is split into lines; each stripped, non-empty,
non-`#`-prefixed line is resolved against the manifest's directory, its
content checksum is computed, its `import_data_version` record is retrieved
(and created when absent), the record is saved on every line, and the file
is queued for import exactly when the stored checksum differs from the
computed one.  After the scan, the queued files are imported in order.
`line.replace("/", os.path.sep)` is the identity on the POSIX platform
modelled here.  File hashing (`kutil.file.file_checksum`) is external and
passed in as a function from path to checksum. -/

/-- A row of the `import_data_version` table: `file_name` is the primary
key, `checksum` is `NULL` until first set. -/
structure ImportRecord where
  file_name : String
  checksum : Option String
deriving DecidableEq, Repr

/-- Observable persistence/import actions of an import run, in order:
saving an `import_data_version` record (with the checksum it holds at that
save), and invoking an importer on a data file. -/
inductive ImportEvent where
  | saveRecord (file_name : String) (checksum : Option String) : ImportEvent
  | invokeImporter (path : String) : ImportEvent
deriving DecidableEq, Repr

/-- Whether an event is a tracking-record save. -/
def ImportEvent.isSave : ImportEvent → Bool
  | .saveRecord _ _ => true
  | .invokeImporter _ => false

/-- State threaded through the manifest scan: the `import_data_version`
table, the journal of events so far, and the `files_to_import` queue. -/
structure ScanState where
  table : List ImportRecord
  events : List ImportEvent
  queue : List String
deriving DecidableEq, Repr

/-- The `WHERE file_name = ?` retrieval: first record for the name
(`file_name` is the primary key, so at most one exists in real states). -/
def lookupRecord (tbl : List ImportRecord) (name : String) : Option ImportRecord :=
  tbl.find? (fun r => r.file_name == name)

/-- Model of `metadata.set_first("checksum", actual_checksum)` followed by save:
update the first record with the given name. -/
def setFirstChecksum (name : String) (cs : Option String) :
    List ImportRecord → List ImportRecord
  | [] => []
  | r :: rest =>
    if r.file_name == name then { r with checksum := cs } :: rest
    else r :: setFirstChecksum name cs rest

/-- The guard `line.startswith("#") or len(line) == 0` skipping comments and
blank lines. -/
def skippedLine (line : String) : Bool :=
  startsWithHash line || line.data.length == 0

/-- One iteration of the manifest loop (`_execute_command` lines 50-77) on a
raw manifest line: strip it, skip comments and blanks, otherwise create the
tracking record when absent (one save), then either queue the file and store
the new checksum or leave the table unchanged, saving the record either way. -/
def processLine (checksum : String → String) (manifestDir : String)
    (st : ScanState) (rawLine : String) : ScanState :=
  let line := pyStrip rawLine
  if skippedLine line then st
  else
    let file_path := pathJoin manifestDir line
    let actual := checksum file_path
    let created :=
      if (lookupRecord st.table line).isSome then st
      else { st with table := st.table ++ [⟨line, none⟩]
                     events := st.events ++ [.saveRecord line none] }
    let current := (lookupRecord created.table line).bind (fun r => r.checksum)
    if current == some actual then
      { created with events := created.events ++ [.saveRecord line current] }
    else
      { created with table := setFirstChecksum line (some actual) created.table
                     events := created.events ++ [.saveRecord line (some actual)]
                     queue := created.queue ++ [file_path] }

/-- The whole manifest scan: fold the loop body over the manifest lines. -/
def scanManifest (checksum : String → String) (manifestDir : String)
    (tbl : List ImportRecord) (lines : List String) : ScanState :=
  lines.foldl (processLine checksum manifestDir) ⟨tbl, [], []⟩

/-- The post-scan import loop (`_execute_command` lines 79-81): invoke
the importer on each queued path in order.  `importOk` tells whether an
invocation returns normally; an invocation that raises ends the run (the
exception propagates), so later queued files are not imported. -/
def invokeEvents (importOk : String → Bool) : List String → List ImportEvent
  | [] => []
  | p :: rest =>
    if importOk p then .invokeImporter p :: invokeEvents importOk rest
    else [.invokeImporter p]

/-- Outcome of a manifest-mode import run: the final `import_data_version`
table and the ordered journal of saves and importer invocations. -/
structure ImportOutcome where
  table : List ImportRecord
  events : List ImportEvent
deriving DecidableEq, Repr

/-- Model of `ImportCommand._execute_command` in manifest mode: split the
definition file into lines, scan them (persisting tracking records as they
go), and then bring in the queued files. -/
def import_command_execute (checksum : String → String) (importOk : String → Bool)
    (manifestDir : String) (manifestText : String)
    (tbl : List ImportRecord) : ImportOutcome :=
  let scan := scanManifest checksum manifestDir tbl (pySplitChar '\n' manifestText)
  ⟨scan.table, scan.events ++ invokeEvents importOk scan.queue⟩

/-! ## The regular importer (`importer.py`, class `RegularImporter`)

`RegularImporter.do_import` reads the envelope, requires `args.file_path`
(exiting the process when it is `None`), optionally scopes the target table
by `metadata.filter` (a SQL fragment; Python's truthiness test means an
empty filter string is treated as no filter), retrieves the scoped rows,
removes them all, saves, inserts every record of `data`, and saves again.
Rows are an abstract type `Row`; the database capability evaluating a SQL
filter fragment on a row is passed in as `evalFilter`.  `_format_data` is
the identity in `RegularImporter`. -/

/-- The JSON data envelope read by `do_import`. -/
structure Envelope (Row : Type) where
  table_name : String
  type_tag : String
  filter : Option String
  data : List Row

/-- The row scope `do_import` operates on: the whole table, narrowed by the
filter exactly when a non-empty filter string is present. -/
def scopeOf {Row : Type} (evalFilter : String → Row → Bool)
    (filter : Option String) : Row → Bool :=
  match filter with
  | some f => if f = "" then fun _ => true else evalFilter f
  | none => fun _ => true

/-- Model of `RegularImporter.do_import`: the value `none` models the `sys.exit(1)` taken when
`args.file_path` is `None` (no table access happens).  Otherwise the result
is the final table contents together with the journal of table states
persisted by the two `save()` calls, in order: first the table with the
scoped rows removed, then that table with every `data` record appended. -/
def do_import {Row : Type} (file_path : Option String)
    (evalFilter : String → Row → Bool) (env : Envelope Row)
    (tbl : List Row) : Option (List Row × List (List Row)) :=
  match file_path with
  | none => none
  | some _ =>
    let data := env.data
    let scope := scopeOf evalFilter env.filter
    let afterDelete := tbl.filter (fun r => !(scope r))
    let afterInsert := afterDelete ++ data
    some (afterInsert, [afterDelete, afterInsert])

/-! ## Strategy resolution (`cli.py`, class `DatabaseCLI`)

`get_importer` / `get_extractor` look a tag up in the corresponding registry
dictionary and fall back to the `"Regular"` entry when the tag is absent
(registered strategy objects are always truthy, so Python's `or` returns the
found strategy exactly when the lookup succeeded). -/

/-- The reserved default strategy tag, `DatabaseCLI.Regular`. -/
def RegularTag : String := "Regular"

/-- Dictionary lookup `d.get(name)` for a registry modelled as an
association list. -/
def registryGet {α : Type} (reg : List (String × α)) (name : String) : Option α :=
  (reg.find? (fun p => p.1 == name)).map (fun p => p.2)

/-- The registries of a `DatabaseCLI` instance (importer and extractor
implementations are abstract types). -/
structure DatabaseCLI (I E : Type) where
  importers : List (String × I)
  extractors : List (String × E)

/-- Model of `DatabaseCLI.get_importer`: the registered importer for the tag, or the
`"Regular"` one when the tag is unregistered. -/
def get_importer {I E : Type} (cli : DatabaseCLI I E) (name : String) : Option I :=
  match registryGet cli.importers name with
  | some imp => some imp
  | none => registryGet cli.importers RegularTag

/-- Model of `DatabaseCLI.get_extractor`: the registered extractor for the tag, or
the `"Regular"` one when the tag is unregistered. -/
def get_extractor {I E : Type} (cli : DatabaseCLI I E) (name : String) : Option E :=
  match registryGet cli.extractors name with
  | some ext => some ext
  | none => registryGet cli.extractors RegularTag

/-! ## Spec-side renderings of migration names

The spec describes the recorded `version` as the file name's first
`__`-segment "with the `v` stripped and every `_` replaced by `.`", for
version tokens of the shape `v?\d[\d_]*`, and the `description` as the
second segment with underscores rendered as spaces.  The following
definitions follow those words; the claim compares them with what
`__update_schema_version` computes. -/

/-- A character allowed after the leading digit of a version token:
a digit or an underscore. -/
def isVersionChar (c : Char) : Bool := c.isDigit || c == '_'

/-- The `v?\d[\d_]*` shape of a version token: an optional leading `v`,
then a digit, then digits and underscores. -/
def versionTokenShape (s : String) : Bool :=
  match s.data with
  | [] => false
  | c :: rest =>
    if c = 'v' then
      match rest with
      | [] => false
      | d :: rest' => d.isDigit && rest'.all isVersionChar
    else c.isDigit && rest.all isVersionChar

/-- Strip one leading `v`, if present (the spec's "stripping `v`"). -/
def stripLeadingV (s : String) : String :=
  match s.data with
  | c :: rest => if c = 'v' then ⟨rest⟩ else s
  | [] => s

/-- The spec's rendering of a version token: strip the leading `v`, then
replace every `_` by `.`. -/
def specVersionRendering (vt : String) : String :=
  replaceChar '_' '.' (stripLeadingV vt)

/-- The spec's rendering of a description token: underscores become
spaces. -/
def specDescriptionRendering (dt : String) : String :=
  replaceChar '_' ' ' dt

/-- A one-migration setup used to exhibit the schema-version bookkeeping
mismatch in `MigrateCommand.__migrate`: one directory `d` containing the
single migration `v1__init.sql`. -/
def singleMigrationDirs : List (String × List String) := [("d", ["v1__init.sql"])]

/-! ## Helper lemmas -/

/-- The method `__update_schema_version` raises exactly when the extension-stripped
name does not split into two `__`-separated parts. -/
theorem update_schema_version_invalid (rows : List SchemaRow) (n : String)
    (h : (pySplitDunder (remove_extension_from_path n)).length ≠ 2) :
    update_schema_version rows n =
      .error (.invalidMigration (remove_extension_from_path n)) := by
  unfold update_schema_version
  rcases hp : pySplitDunder (remove_extension_from_path n) with _ | ⟨a, _ | ⟨b, _ | ⟨c, t⟩⟩⟩ <;>
    (simp only [hp]
     all_goals first | rfl | exact absurd (by simp [hp]) h)

/-- A character that can appear in a version token is not `v`. -/
theorem isVersionChar_ne_v (c : Char) (h : isVersionChar c = true) : ¬ c = 'v' := by
  intro e
  subst e
  exact absurd h (by decide)

/-- A digit is not `v`. -/
theorem isDigit_ne_v (c : Char) (h : c.isDigit = true) : ¬ c = 'v' := by
  intro e
  subst e
  exact absurd h (by decide)

/-- A list of version-token characters is untouched by filtering `v` out. -/
theorem filter_ne_v_eq_self (l : List Char) (h : ∀ a ∈ l, ¬ a = 'v') :
    List.filter (fun x => !(x == 'v')) l = l := by
  refine List.filter_eq_self.mpr ?_
  intro a ha
  simpa using h a ha

/-- On a token of the `v?\d[\d_]*` shape, Python's `version.replace("v", "")`
(which removes every `v`) removes exactly the optional leading `v`. -/
theorem removeAllChar_v_of_shape (vt : String) (h : versionTokenShape vt = true) :
    removeAllChar 'v' vt = stripLeadingV vt := by
  obtain ⟨cs⟩ := vt
  rcases cs with _ | ⟨c, rest⟩
  · exact absurd h (by decide)
  · unfold versionTokenShape at h
    simp only at h
    unfold removeAllChar stripLeadingV
    simp only
    by_cases hc : c = 'v'
    · subst hc
      rw [if_pos rfl] at h ⊢
      rcases rest with _ | ⟨d, rest'⟩
      · exact absurd h (by decide)
      · obtain ⟨hd, hall⟩ := Bool.and_eq_true_iff.mp h
        have hfd : List.filter (fun x => !(x == 'v')) (d :: rest') = d :: rest' := by
          refine filter_ne_v_eq_self _ ?_
          intro a ha
          rcases List.mem_cons.mp ha with rfl | ha'
          · exact isDigit_ne_v a hd
          · exact isVersionChar_ne_v a (List.all_eq_true.mp hall a ha')
        have hstep : List.filter (fun x => !(x == 'v')) ('v' :: d :: rest') = d :: rest' := by
          rw [List.filter_cons]
          simpa using hfd
        exact congrArg String.mk hstep
    · rw [if_neg hc] at h ⊢
      obtain ⟨hd, hall⟩ := Bool.and_eq_true_iff.mp h
      have hstep : List.filter (fun x => !(x == 'v')) (c :: rest) = c :: rest := by
        refine filter_ne_v_eq_self _ ?_
        intro a ha
        rcases List.mem_cons.mp ha with rfl | ha'
        · exact isDigit_ne_v a hd
        · exact isVersionChar_ne_v a (List.all_eq_true.mp hall a ha')
      exact congrArg String.mk hstep

/-! ## Claims about the migrator -/

/-- C1.  The claim says `migrate` is idempotent: a second run against the
same directories inserts no additional `schema_version` row and re-executes
no script.  The code violates this: `__update_schema_version` records the
file name with its extension removed (here `v1__init`), while the per-file
check in `__migrate` queries `schema_version` for the name with its
extension (`v1__init.sql`) and the fast path queries it for the full path
(`d/v1__init.sql`), so no recorded migration is ever recognised: the second
run re-executes the script and appends a duplicate row. -/
theorem migrate_second_run_reexecutes_and_duplicates :
    (migrate singleMigrationDirs []).error = none ∧
    (migrate singleMigrationDirs []).rows =
      [⟨"v1__init", "1", "init", 1⟩] ∧
    (migrate singleMigrationDirs ((migrate singleMigrationDirs []).rows)).executed =
      [⟨"d", "v1__init.sql"⟩] ∧
    (migrate singleMigrationDirs ((migrate singleMigrationDirs []).rows)).rows =
      [⟨"v1__init", "1", "init", 1⟩, ⟨"v1__init", "1", "init", 1⟩] := by
  decide

/-- C2, counterexample.  The claim says a file whose base name lacks the
`__` separator causes a fatal error *before any database mutation for that
file*, its script not executed.  In the code the script is executed first
(`executescript` at line 85) and only `__update_schema_version` raises:
running `migrate` on the single file `badname.sql` executes its script and
then fails. -/
theorem migrate_bad_name_script_executed_cex :
    (migrate [("d", ["badname.sql"])] []).executed = [⟨"d", "badname.sql"⟩] ∧
    (migrate [("d", ["badname.sql"])] []).error =
      some (.invalidMigration "badname") ∧
    (migrate [("d", ["badname.sql"])] []).rows = [] := by
  decide

/-- C2, amended.  When the migration loop reaches a file that is not yet
recorded and whose extension-stripped base name does not split into exactly
two `__`-delimited segments, it executes that file's script, then raises the
fatal `RuntimeError`, aborting the run with no `schema_version` row written
for the file (or for any later file). -/
theorem migrate_bad_name_fatal_after_script (rows : List SchemaRow)
    (journal : List MigEntry) (e : MigEntry) (rest : List MigEntry)
    (hbad : (pySplitDunder (remove_extension_from_path e.base)).length ≠ 2)
    (hnew : migration_exists rows e.base = false) :
    migrateLoop rows journal (e :: rest) =
      ⟨rows, journal ++ [e],
        some (.invalidMigration (remove_extension_from_path e.base))⟩ := by
  rw [migrateLoop, hnew, update_schema_version_invalid rows e.base hbad]
  rfl

/-- Witness for `migrate_bad_name_fatal_after_script` at the concrete file
`badname.sql`. -/
theorem migrate_bad_name_fatal_after_script_witness :
    (pySplitDunder (remove_extension_from_path "badname.sql")).length ≠ 2 ∧
    migration_exists [] "badname.sql" = false ∧
    migrateLoop [] [] [⟨"d", "badname.sql"⟩] =
      ⟨[], [⟨"d", "badname.sql"⟩], some (.invalidMigration "badname")⟩ :=
  ⟨by decide, by decide,
    migrate_bad_name_fatal_after_script [] [] ⟨"d", "badname.sql"⟩ []
      (by decide) (by decide)⟩

/-- C3, counterexample.  The claim says an empty flattened file list is
treated as "no migrations to run" with a normal return; in the code
`migrations[-1]` raises `IndexError` on the empty list, both for an empty
directory set and for a directory with an empty listing. -/
theorem migrate_empty_returns_normally_cex :
    (migrate [] []).error = some .indexError ∧
    (migrate [("d", [])] []).error = some .indexError := by
  decide

/-- C3, amended.  Whenever the configured directories flatten to an empty
file list, `migrate` fails with the index-out-of-range error of the
last-file fast-path check (`migrations[-1]`), executing no script and
leaving `schema_version` unchanged, instead of returning normally. -/
theorem migrate_empty_list_index_error (dirs : List (String × List String))
    (rows : List SchemaRow) (h : flattenDirs dirs = []) :
    migrate dirs rows = ⟨rows, [], some .indexError⟩ := by
  unfold migrate
  rw [h]
  rfl

/-- Witness for `migrate_empty_list_index_error` at a directory set whose
single directory has an empty listing. -/
theorem migrate_empty_list_index_error_witness :
    flattenDirs [("d", [])] = [] ∧
    migrate [("d", [])] [] = ⟨[], [], some .indexError⟩ :=
  ⟨by decide, migrate_empty_list_index_error [("d", [])] [] (by decide)⟩

/-- The journal of a `migrateLoop` run extends the incoming journal by a
subsequence of the processed entries, in their order. -/
theorem migrateLoop_executed_sublist :
    ∀ (entries : List MigEntry) (rows : List SchemaRow) (journal : List MigEntry),
      ∃ s, (migrateLoop rows journal entries).executed = journal ++ s ∧ s.Sublist entries
  | [], _, journal => ⟨[], by simp [migrateLoop], List.nil_sublist _⟩
  | e :: rest, rows, journal => by
    rw [migrateLoop]
    cases hex : migration_exists rows e.base with
    | true =>
      simp only [if_true]
      obtain ⟨s, hs, hsub⟩ := migrateLoop_executed_sublist rest rows journal
      exact ⟨s, hs, hsub.cons e⟩
    | false =>
      simp only [Bool.false_eq_true, if_false]
      rcases hu : update_schema_version rows e.base with err | rows'
      · exact ⟨[e], rfl, (List.nil_sublist rest).cons₂ e⟩
      · obtain ⟨s, hs, hsub⟩ := migrateLoop_executed_sublist rest rows' (journal ++ [e])
        refine ⟨e :: s, ?_, hsub.cons₂ e⟩
        rw [hs, List.append_assoc]
        rfl

/-- C5.  For every configuration of directories and every starting
`schema_version` table, the scripts a `migrate` run executes are applied in
ascending lexicographic order of base file name — the directories are
flattened and sorted by base name only, so which directory contributed a
file is irrelevant.  In particular, for directories `A = {b__1.sql}` and
`B = {a__1.sql}`, the application order is `a__1.sql` then `b__1.sql`,
whichever directory is listed first. -/
theorem migrate_applies_in_base_name_order :
    (∀ (dirs : List (String × List String)) (rows : List SchemaRow),
      List.Sorted (· ≤ ·) (((migrate dirs rows).executed).map MigEntry.base)) ∧
    ((migrate [("A", ["b__1.sql"]), ("B", ["a__1.sql"])] []).executed.map MigEntry.base
        = ["a__1.sql", "b__1.sql"]) ∧
    ((migrate [("B", ["a__1.sql"]), ("A", ["b__1.sql"])] []).executed.map MigEntry.base
        = ["a__1.sql", "b__1.sql"]) := by
  refine ⟨?_, by decide, by decide⟩
  intro dirs rows
  unfold migrate
  rcases hl : (sortMigrations (flattenDirs dirs)).getLast? with _ | last
  · simp only [hl]
    exact List.sorted_nil
  · simp only [hl]
    cases hex : migration_exists rows last.path with
    | true => simp only [hex, if_true]; exact List.sorted_nil
    | false =>
      simp only [hex, Bool.false_eq_true, if_false]
      obtain ⟨s, hs, hsub⟩ :=
        migrateLoop_executed_sublist (sortMigrations (flattenDirs dirs)) rows []
      rw [hs, List.nil_append]
      have hsorted : List.Sorted MigEntry.baseLE (sortMigrations (flattenDirs dirs)) :=
        List.sorted_insertionSort MigEntry.baseLE _
      have hss : List.Sorted MigEntry.baseLE s := List.Pairwise.sublist hsub hsorted
      refine List.pairwise_map.mpr (hss.imp ?_)
      intro a b hab
      exact String.le_iff_toList_le.mpr hab

/-- C4.  The claim says that whenever the lexicographically-last migration
file is already recorded as applied in `schema_version`, `migrate` skips the
entire run.  The code violates this: records are written with the extension
stripped (`v1__init`), but the fast path queries `schema_version` for the
full path of the last entry (`d/v1__init.sql`), which never matches a record
the code itself writes.  Starting from the very table produced by a
successful run — in which the sort-last (only) migration is recorded as
applied — the next run is not skipped: it re-executes the script. -/
theorem migrate_fast_path_misses_recorded_last_migration :
    migration_exists ((migrate singleMigrationDirs []).rows) "v1__init" = true ∧
    (migrate singleMigrationDirs ((migrate singleMigrationDirs []).rows)).executed ≠ [] := by
  decide

/-- C9.  For a well-formed migration file name `<vt>__<dt>.<ext>` — one
whose extension-stripped base name splits into exactly the two `__`-delimited
segments `vt` and `dt` — with `vt` of the `v?\d[\d_]*` shape,
`__update_schema_version` records a row whose `version` is `vt` with the
`v` stripped and every `_` replaced by `.`, and whose `description` is `dt`
with underscores replaced by spaces (both phrased by the spec-side
renderings `specVersionRendering` / `specDescriptionRendering`). -/
theorem update_schema_version_renders_name (rows : List SchemaRow)
    (vt dt ext : String)
    (hshape : versionTokenShape vt = true)
    (hsplit : pySplitDunder (remove_extension_from_path (vt ++ "__" ++ dt ++ "." ++ ext))
        = [vt, dt]) :
    update_schema_version rows (vt ++ "__" ++ dt ++ "." ++ ext) =
      .ok (rows ++
        [{ file_name := remove_extension_from_path (vt ++ "__" ++ dt ++ "." ++ ext)
           version := specVersionRendering vt
           description := specDescriptionRendering dt
           success := 1 }]) := by
  unfold update_schema_version
  simp only [hsplit]
  rw [removeAllChar_v_of_shape vt hshape]
  rfl

/-- Witness for `update_schema_version_renders_name` at the spec's example
name `v2025_10_12_2205__Create_tables.sql`: the recorded version is
`2025.10.12.2205` and the description is `Create tables`. -/
theorem update_schema_version_renders_name_witness :
    versionTokenShape "v2025_10_12_2205" = true ∧
    pySplitDunder (remove_extension_from_path "v2025_10_12_2205__Create_tables.sql")
      = ["v2025_10_12_2205", "Create_tables"] ∧
    update_schema_version [] "v2025_10_12_2205__Create_tables.sql" =
      .ok [{ file_name := "v2025_10_12_2205__Create_tables"
             version := "2025.10.12.2205"
             description := "Create tables"
             success := 1 }] :=
  ⟨by decide, by decide,
    update_schema_version_renders_name [] "v2025_10_12_2205" "Create_tables" "sql"
      (by decide) (by decide)⟩

/-! ## Helper lemmas about the import scan -/

/-- Lookup distributes over table append: the first table is searched first. -/
theorem lookupRecord_append (tbl₁ tbl₂ : List ImportRecord) (n : String) :
    lookupRecord (tbl₁ ++ tbl₂) n =
      match lookupRecord tbl₁ n with
      | some r => some r
      | none => lookupRecord tbl₂ n := by
  induction tbl₁ with
  | nil => rfl
  | cons r rest ih =>
    unfold lookupRecord at ih ⊢
    cases hb : (r.file_name == n) with
    | true => simp [List.find?, hb]
    | false => simp only [List.cons_append, List.find?, hb]; exact ih

/-- Looking up a name after `set_first("checksum", …)` on that name sees the
updated checksum. -/
theorem lookupRecord_setFirstChecksum (tbl : List ImportRecord) (n : String)
    (cs : Option String) :
    lookupRecord (setFirstChecksum n cs tbl) n =
      (lookupRecord tbl n).map (fun r => { r with checksum := cs }) := by
  induction tbl with
  | nil => rfl
  | cons r rest ih =>
    cases hb : (r.file_name == n) with
    | true => simp [setFirstChecksum, lookupRecord, List.find?, hb]
    | false =>
      simp only [setFirstChecksum, lookupRecord, List.find?, hb, Bool.false_eq_true,
        if_false] at ih ⊢
      exact ih

/-- A record found by name carries that name. -/
theorem find?_file_name {tbl : List ImportRecord} {n : String} {r : ImportRecord}
    (h : lookupRecord tbl n = some r) : r.file_name = n := by
  have := List.find?_some h
  exact eq_of_beq (by simpa using this)

/-- The manifest-scan loop body only ever appends record-save events. -/
theorem processLine_events_save (cs : String → String) (dir : String)
    (st : ScanState) (l : String) (h : st.events.all ImportEvent.isSave = true) :
    ((processLine cs dir st l).events).all ImportEvent.isSave = true := by
  unfold processLine
  cases hskip : skippedLine (pyStrip l) with
  | true => simpa [hskip] using h
  | false =>
    simp only [hskip, Bool.false_eq_true, if_false]
    cases hlook : (lookupRecord st.table (pyStrip l)).isSome with
    | true =>
      simp only [hlook, if_true]
      cases hcur : ((lookupRecord st.table (pyStrip l)).bind (fun r => r.checksum)
          == some (cs (pathJoin dir (pyStrip l)))) with
      | true => simp [hcur, List.all_append, h, ImportEvent.isSave]
      | false => simp [hcur, List.all_append, h, ImportEvent.isSave]
    | false =>
      simp only [hlook, Bool.false_eq_true, if_false]
      cases hcur : ((lookupRecord (st.table ++ [⟨pyStrip l, none⟩]) (pyStrip l)).bind
          (fun r => r.checksum) == some (cs (pathJoin dir (pyStrip l)))) with
      | true => simp [hcur, List.all_append, h, ImportEvent.isSave]
      | false => simp [hcur, List.all_append, h, ImportEvent.isSave]

/-- Every event journalled during a manifest scan is a record save. -/
theorem scan_events_save (cs : String → String) (dir : String) :
    ∀ (lines : List String) (st : ScanState),
      st.events.all ImportEvent.isSave = true →
      ((lines.foldl (processLine cs dir) st).events).all ImportEvent.isSave = true
  | [], _, h => h
  | l :: rest, st, h =>
    scan_events_save cs dir rest (processLine cs dir st l)
      (processLine_events_save cs dir st l h)

/-- The post-scan import loop emits importer invocations only. -/
theorem invokeEvents_not_save (ok : String → Bool) :
    ∀ (q : List String), (invokeEvents ok q).all (fun e => !e.isSave) = true
  | [] => rfl
  | p :: rest => by
    unfold invokeEvents
    cases hok : ok p with
    | true => simpa [ImportEvent.isSave] using invokeEvents_not_save ok rest
    | false => simp [ImportEvent.isSave]

/-- When every invocation returns normally, the import loop invokes exactly
the queued files, in order. -/
theorem invokeEvents_all_ok : ∀ (q : List String),
    invokeEvents (fun _ => true) q = q.map ImportEvent.invokeImporter
  | [] => rfl
  | p :: rest => by
    unfold invokeEvents
    simpa using invokeEvents_all_ok rest

/-! ## Claims about the import pipeline -/

/-- C10.  In manifest mode the final `import_data_version` table is the one
produced by the scan alone; the event journal is the scan's journal followed
by the importer invocations; every scan event is a tracking-record save and
every post-scan event is an invocation (so the first invocation happens only
after the whole manifest is scanned and all records saved); and the
persisted table does not depend on which importer invocations fail. -/
theorem manifest_saves_precede_imports
    (checksum : String → String) (importOk importOk' : String → Bool)
    (manifestDir manifestText : String) (tbl : List ImportRecord) :
    (import_command_execute checksum importOk manifestDir manifestText tbl).table
        = (scanManifest checksum manifestDir tbl (pySplitChar '\n' manifestText)).table ∧
    (import_command_execute checksum importOk manifestDir manifestText tbl).events
        = (scanManifest checksum manifestDir tbl (pySplitChar '\n' manifestText)).events ++
          invokeEvents importOk
            (scanManifest checksum manifestDir tbl (pySplitChar '\n' manifestText)).queue ∧
    ((scanManifest checksum manifestDir tbl (pySplitChar '\n' manifestText)).events).all
        ImportEvent.isSave = true ∧
    (invokeEvents importOk
        (scanManifest checksum manifestDir tbl (pySplitChar '\n' manifestText)).queue).all
        (fun e => !e.isSave) = true ∧
    (import_command_execute checksum importOk' manifestDir manifestText tbl).table
        = (import_command_execute checksum importOk manifestDir manifestText tbl).table :=
  ⟨rfl, rfl,
    scan_events_save checksum manifestDir (pySplitChar '\n' manifestText) ⟨tbl, [], []⟩ rfl,
    invokeEvents_not_save importOk _, rfl⟩

/-- C6.  Checksum gating of the manifest scan.  For a proper manifest entry
(neither blank nor a comment): (1) when the stored checksum equals the
freshly computed one, the loop body leaves the table and the import queue
unchanged but still persists the (unchanged) record — one more save event
and nothing else; (2) when the stored checksum differs (or no record
exists), the file is queued exactly once for import, the stored checksum
becomes the computed one, and the record is saved with it; and (3) a run
whose importer invocations all return normally invokes the importer exactly
on the queued files, in order. -/
theorem manifest_checksum_gating :
    (∀ (checksum : String → String) (dir : String) (st : ScanState) (rawLine : String)
        (r : ImportRecord),
      skippedLine (pyStrip rawLine) = false →
      lookupRecord st.table (pyStrip rawLine) = some r →
      r.checksum = some (checksum (pathJoin dir (pyStrip rawLine))) →
      processLine checksum dir st rawLine =
        { st with events := st.events ++ [.saveRecord (pyStrip rawLine) r.checksum] }) ∧
    (∀ (checksum : String → String) (dir : String) (st : ScanState) (rawLine : String),
      skippedLine (pyStrip rawLine) = false →
      (lookupRecord st.table (pyStrip rawLine)).bind (fun r => r.checksum)
          ≠ some (checksum (pathJoin dir (pyStrip rawLine))) →
      (processLine checksum dir st rawLine).queue
          = st.queue ++ [pathJoin dir (pyStrip rawLine)] ∧
      lookupRecord (processLine checksum dir st rawLine).table (pyStrip rawLine)
          = some ⟨pyStrip rawLine, some (checksum (pathJoin dir (pyStrip rawLine)))⟩ ∧
      ((processLine checksum dir st rawLine).events).getLast?
          = some (.saveRecord (pyStrip rawLine)
              (some (checksum (pathJoin dir (pyStrip rawLine)))))) ∧
    (∀ (checksum : String → String) (dir manifestText : String) (tbl : List ImportRecord),
      (import_command_execute checksum (fun _ => true) dir manifestText tbl).events
        = (scanManifest checksum dir tbl (pySplitChar '\n' manifestText)).events ++
          (scanManifest checksum dir tbl (pySplitChar '\n' manifestText)).queue.map
            ImportEvent.invokeImporter) := by
  refine ⟨?_, ?_, ?_⟩
  · intro cs dir st raw r hskip hlook hcs
    unfold processLine
    simp only [hskip, Bool.false_eq_true, if_false, hlook, Option.isSome_some, if_true,
      Option.some_bind]
    rw [hcs]
    simp
  · intro cs dir st raw hskip hne
    rcases hlook : lookupRecord st.table (pyStrip raw) with _ | r
    · have hl2 : lookupRecord (st.table ++ [⟨pyStrip raw, none⟩]) (pyStrip raw)
          = some ⟨pyStrip raw, none⟩ := by
        rw [lookupRecord_append, hlook]
        simp [lookupRecord, List.find?]
      have hno : ((none : Option String) == some (cs (pathJoin dir (pyStrip raw)))) = false := rfl
      have hres : processLine cs dir st raw =
          { table := setFirstChecksum (pyStrip raw) (some (cs (pathJoin dir (pyStrip raw))))
              (st.table ++ [⟨pyStrip raw, none⟩]),
            events := st.events ++ [.saveRecord (pyStrip raw) none] ++
              [.saveRecord (pyStrip raw) (some (cs (pathJoin dir (pyStrip raw))))],
            queue := st.queue ++ [pathJoin dir (pyStrip raw)] } := by
        unfold processLine
        simp only [hskip, Bool.false_eq_true, if_false, hlook, Option.isSome_none, hl2,
          Option.some_bind, hno]
      rw [hres]
      refine ⟨rfl, ?_, List.getLast?_concat _⟩
      rw [lookupRecord_setFirstChecksum, hl2]
      rfl
    · have hb : (r.checksum == some (cs (pathJoin dir (pyStrip raw)))) = false := by
        rw [beq_eq_false_iff_ne]
        simpa [hlook] using hne
      have hres : processLine cs dir st raw =
          { table := setFirstChecksum (pyStrip raw)
              (some (cs (pathJoin dir (pyStrip raw)))) st.table,
            events := st.events ++
              [.saveRecord (pyStrip raw) (some (cs (pathJoin dir (pyStrip raw))))],
            queue := st.queue ++ [pathJoin dir (pyStrip raw)] } := by
        unfold processLine
        simp only [hskip, Bool.false_eq_true, if_false, hlook, Option.isSome_some, if_true,
          Option.some_bind, hb]
      rw [hres]
      refine ⟨rfl, ?_, List.getLast?_concat _⟩
      rw [lookupRecord_setFirstChecksum, hlook]
      simp [find?_file_name hlook]
  · intro cs dir man tbl
    show (scanManifest cs dir tbl (pySplitChar '\n' man)).events ++
        invokeEvents (fun _ => true) (scanManifest cs dir tbl (pySplitChar '\n' man)).queue = _
    rw [invokeEvents_all_ok]

/-- Witness for `manifest_checksum_gating`, on the entry `f.json` of a
manifest in directory `m`, hashing to `abc`: with the record already at
`abc`, the loop body only re-saves the record; with the record at `old`, the
file is queued once, the stored checksum becomes `abc`, and the record is
saved with it. -/
theorem manifest_checksum_gating_witness :
    skippedLine (pyStrip "f.json") = false ∧
    lookupRecord [⟨"f.json", some "abc"⟩] (pyStrip "f.json")
        = some ⟨"f.json", some "abc"⟩ ∧
    (⟨"f.json", some "abc"⟩ : ImportRecord).checksum
        = some ((fun _ => "abc") (pathJoin "m" (pyStrip "f.json"))) ∧
    processLine (fun _ => "abc") "m" ⟨[⟨"f.json", some "abc"⟩], [], []⟩ "f.json"
        = ⟨[⟨"f.json", some "abc"⟩], [.saveRecord "f.json" (some "abc")], []⟩ ∧
    ((lookupRecord [⟨"f.json", some "old"⟩] (pyStrip "f.json")).bind (fun r => r.checksum)
        ≠ some ((fun _ => "abc") (pathJoin "m" (pyStrip "f.json")))) ∧
    (processLine (fun _ => "abc") "m" ⟨[⟨"f.json", some "old"⟩], [], []⟩ "f.json").queue
        = ["m/f.json"] ∧
    lookupRecord (processLine (fun _ => "abc") "m"
        ⟨[⟨"f.json", some "old"⟩], [], []⟩ "f.json").table (pyStrip "f.json")
        = some ⟨"f.json", some "abc"⟩ ∧
    ((processLine (fun _ => "abc") "m"
        ⟨[⟨"f.json", some "old"⟩], [], []⟩ "f.json").events).getLast?
        = some (.saveRecord "f.json" (some "abc")) :=
  ⟨by decide, by decide, rfl,
    manifest_checksum_gating.1 (fun _ => "abc") "m"
      ⟨[⟨"f.json", some "abc"⟩], [], []⟩ "f.json" ⟨"f.json", some "abc"⟩
      (by decide) (by decide) rfl,
    by decide,
    (manifest_checksum_gating.2.1 (fun _ => "abc") "m"
      ⟨[⟨"f.json", some "old"⟩], [], []⟩ "f.json" (by decide) (by decide)).1,
    (manifest_checksum_gating.2.1 (fun _ => "abc") "m"
      ⟨[⟨"f.json", some "old"⟩], [], []⟩ "f.json" (by decide) (by decide)).2.1,
    (manifest_checksum_gating.2.1 (fun _ => "abc") "m"
      ⟨[⟨"f.json", some "old"⟩], [], []⟩ "f.json" (by decide) (by decide)).2.2⟩

/-- C7.  For an import whose envelope carries a (non-empty) `metadata.filter`,
`RegularImporter.do_import` deletes exactly the rows matching the filter,
then inserts every record of the envelope's `data`, leaving the rows that do
not match the filter unchanged (in place, in their order); the deletion and
the insertion are persisted at two distinct save points, in that order.
(The source guards the filter with Python truthiness, so an empty filter
string means "no filter" and is excluded here.) -/
theorem do_import_destructive_replace {Row : Type} (p f : String)
    (evalFilter : String → Row → Bool) (env : Envelope Row) (tbl : List Row)
    (hf : env.filter = some f) (hne : f ≠ "") :
    do_import (some p) evalFilter env tbl =
      some (tbl.filter (fun r => !(evalFilter f r)) ++ env.data,
        [tbl.filter (fun r => !(evalFilter f r)),
         tbl.filter (fun r => !(evalFilter f r)) ++ env.data]) ∧
    (∀ r ∈ tbl, evalFilter f r = false →
      r ∈ tbl.filter (fun x => !(evalFilter f x)) ++ env.data) := by
  constructor
  · unfold do_import scopeOf
    rw [hf]
    simp [if_neg hne]
  · intro r hr hrf
    refine List.mem_append_left _ ?_
    refine List.mem_filter.mpr ⟨hr, ?_⟩
    simp [hrf]

/-- Witness for `do_import_destructive_replace`: rows are numbers, the
filter `is_active = 0` matches the row `0`; importing `[5]` into the table
`[0, 1, 2]` deletes only `0`, keeps `1, 2`, appends `5`, and saves the two
states `[1, 2]` and `[1, 2, 5]` in that order. -/
theorem do_import_destructive_replace_witness :
    (⟨"users", "Regular", some "is_active = 0", [5]⟩ : Envelope Nat).filter
        = some "is_active = 0" ∧
    "is_active = 0" ≠ "" ∧
    do_import (some "f.json") (fun _ r => r == 0)
        (⟨"users", "Regular", some "is_active = 0", [5]⟩ : Envelope Nat) [0, 1, 2] =
      some ([1, 2, 5], [[1, 2], [1, 2, 5]]) ∧
    (∀ r ∈ [0, 1, 2], (fun (_ : String) (r : Nat) => r == 0) "is_active = 0" r = false →
      r ∈ [1, 2, 5]) :=
  ⟨rfl, by decide,
    ((do_import_destructive_replace "f.json" "is_active = 0" (fun _ r => r == 0)
        ⟨"users", "Regular", some "is_active = 0", [5]⟩ [0, 1, 2] rfl (by decide)).1),
    ((do_import_destructive_replace "f.json" "is_active = 0" (fun _ r => r == 0)
        ⟨"users", "Regular", some "is_active = 0", [5]⟩ [0, 1, 2] rfl (by decide)).2)⟩

/-- C8.  For every strategy-tag lookup on a `DatabaseCLI` whose registry
holds the default `"Regular"` implementation, an unregistered tag resolves
to the default implementation instead of failing, for importers and for
extractors alike. -/
theorem unknown_strategy_falls_back_to_regular {I E : Type}
    (cli : DatabaseCLI I E) (name : String) (dI : I) (dE : E) :
    (registryGet cli.importers name = none →
      registryGet cli.importers RegularTag = some dI →
      get_importer cli name = some dI) ∧
    (registryGet cli.extractors name = none →
      registryGet cli.extractors RegularTag = some dE →
      get_extractor cli name = some dE) := by
  constructor
  · intro h hr
    unfold get_importer
    rw [h, hr]
  · intro h hr
    unfold get_extractor
    rw [h, hr]

/-- Witness for `unknown_strategy_falls_back_to_regular`: with only the
`"Regular"` pair registered (as `post_init` does), the unknown tag
`"Bogus"` — e.g. from an envelope with `metadata.type = "Bogus"` — resolves
to the Regular importer and the Regular extractor. -/
theorem unknown_strategy_falls_back_to_regular_witness :
    registryGet ([("Regular", 0)] : List (String × Nat)) "Bogus" = none ∧
    registryGet ([("Regular", 0)] : List (String × Nat)) RegularTag = some 0 ∧
    registryGet ([("Regular", 1)] : List (String × Nat)) "Bogus" = none ∧
    registryGet ([("Regular", 1)] : List (String × Nat)) RegularTag = some 1 ∧
    get_importer (⟨[("Regular", 0)], [("Regular", 1)]⟩ : DatabaseCLI Nat Nat) "Bogus"
        = some 0 ∧
    get_extractor (⟨[("Regular", 0)], [("Regular", 1)]⟩ : DatabaseCLI Nat Nat) "Bogus"
        = some 1 :=
  ⟨by decide, by decide, by decide, by decide,
    (unknown_strategy_falls_back_to_regular
        (⟨[("Regular", 0)], [("Regular", 1)]⟩ : DatabaseCLI Nat Nat) "Bogus" 0 1).1
      (by decide) (by decide),
    (unknown_strategy_falls_back_to_regular
        (⟨[("Regular", 0)], [("Regular", 1)]⟩ : DatabaseCLI Nat Nat) "Bogus" 0 1).2
      (by decide) (by decide)⟩

end KamaDbm
